import Mathlib

/-!
Verification of the GAIT Story Builder video-assembly pipeline
(src/services/video_service.py and its callers) against its
natural-language specification.

Durations and timestamps are Python floats in the source; they are modelled
here as rationals, which represent the real-valued arithmetic of the code
exactly on the discrete comparisons and sums the pipeline performs.
External effects (the remote video API, the media library, base64, the
filesystem) are modelled as explicit oracle fields of a world structure,
so that every pipeline function is a pure, executable Lean definition.
-/

namespace GaitVideo

/-- Raw byte strings (PNG images, MP4 files) are modelled as lists of bytes. -/
abbrev Bytes := List Nat

/-- Models the Python value of a numeric dictionary field such as
beat["padded_duration_seconds"]: the key can be absent or None, hold a value
that float() accepts, or hold a value on which float() raises. -/
inductive DurField where
  | noneVal
  | num (q : ℚ)
  | bad
deriving DecidableEq

/-- One beat of a structured scene, restricted to the fields the
video-assembly pipeline reads: order (b.get("order", 0), absent modelled as
none), padded_duration_seconds and duration_seconds. -/
structure Beat where
  order : Option Int
  padded_duration_seconds : DurField
  duration_seconds : DurField
deriving DecidableEq

/-- A structured scene, restricted to its beats list.  A missing or None
"beats" key is normalised by the source (scene.get("beats") or []) to the
empty list, so it is modelled as beats = []. -/
structure Scene where
  beats : List Beat
deriving DecidableEq

/-- Embeds video_service._quantize_sora_duration: snap a requested duration
to the discrete clip lengths the provider accepts. -/
def quantize_sora_duration (duration : ℚ) : ℚ :=
  if duration ≤ 6 then 4 else if duration ≤ 10 then 8 else 12

/-- Embeds video_service._beat_duration_with_buffer: read the padded or raw
beat duration (falling back to the per-beat default when missing or
unparseable), add a 25 percent buffer of at least 1 second when no padded
value was present, and quantize. -/
def beat_duration_with_buffer (beat : Beat) (fallback : ℚ) : ℚ :=
  let hasPadded : Bool :=
    match beat.padded_duration_seconds with
    | .noneVal => false
    | _ => true
  let base : ℚ :=
    match beat.padded_duration_seconds with
    | .num q => q
    | .bad => fallback
    | .noneVal =>
      match beat.duration_seconds with
      | .num q => q
      | _ => fallback
  let base := if hasPadded then base else base + max 1 (base * (1/4))
  quantize_sora_duration base

/-- Embeds video_service._total_duration_with_buffer: the per-beat padded
durations are summed, floored by length times the per-beat default, and the
sum is passed through quantization again; an empty beats list yields the
raw per-beat default. -/
def total_duration_with_buffer (beats : List Beat) (fallback_per_beat : ℚ) : ℚ :=
  match beats with
  | [] => fallback_per_beat
  | _ =>
    let total := beats.foldl (fun acc b => acc + beat_duration_with_buffer b fallback_per_beat) 0
    quantize_sora_duration (max total (beats.length * fallback_per_beat))

/-- Embeds the whole-scene target duration of the single-call fallback path
of generate_video_with_sora: the buffered total, capped at 60 seconds. -/
def sora_fallback_target (beats : List Beat) (seconds_per_beat : ℚ) : ℚ :=
  min (total_duration_with_buffer beats seconds_per_beat) 60

theorem quantize_mem_values (d : ℚ) :
    quantize_sora_duration d = 4 ∨ quantize_sora_duration d = 8 ∨
      quantize_sora_duration d = 12 := by
  unfold quantize_sora_duration
  split_ifs <;> simp

theorem quantize_le_twelve (d : ℚ) : quantize_sora_duration d ≤ 12 := by
  rcases quantize_mem_values d with h | h | h <;> rw [h] <;> norm_num

/-- C2: the quantized duration always lies in {4, 8, 12}; durations up to 6
snap to 4, durations in (6, 10] snap to 8, larger ones to 12, and in
particular quantize 5 = 4, quantize 6 = 4, quantize 7 = 8, quantize 10 = 8
and quantize 11 = 12. -/
theorem quantize_duration_spec (d : ℚ) :
    quantize_sora_duration d ∈ ({4, 8, 12} : Set ℚ) ∧
    (d ≤ 6 → quantize_sora_duration d = 4) ∧
    (6 < d → d ≤ 10 → quantize_sora_duration d = 8) ∧
    (10 < d → quantize_sora_duration d = 12) ∧
    quantize_sora_duration 5 = 4 ∧ quantize_sora_duration 6 = 4 ∧
    quantize_sora_duration 7 = 8 ∧ quantize_sora_duration 10 = 8 ∧
    quantize_sora_duration 11 = 12 := by
  refine ⟨?_, ?_, ?_, ?_, ?_, ?_, ?_, ?_, ?_⟩
  · rcases quantize_mem_values d with h | h | h <;> rw [h] <;> simp
  · intro h
    unfold quantize_sora_duration
    simp [h]
  · intro h1 h2
    unfold quantize_sora_duration
    rw [if_neg (by linarith), if_pos h2]
  · intro h
    unfold quantize_sora_duration
    rw [if_neg (by linarith), if_neg (by linarith)]
  all_goals unfold quantize_sora_duration; norm_num

theorem quantize_duration_spec_witness : quantize_sora_duration 7 = 8 :=
  (quantize_duration_spec 7).2.2.1 (by norm_num) (by norm_num)

/-- C10: for every list of beats, the fallback whole-scene target (the
buffered per-beat sum passed through quantization, then capped at 60, with
the per-beat default of 4 seconds used by every caller) evaluates to 4, 8 or
12; it never exceeds 12, so the 60-second cap is never binding. -/
theorem fallback_duration_in_set (beats : List Beat) :
    sora_fallback_target beats 4 = total_duration_with_buffer beats 4 ∧
    sora_fallback_target beats 4 ∈ ({4, 8, 12} : Set ℚ) ∧
    total_duration_with_buffer beats 4 ≤ 12 := by
  have hle : total_duration_with_buffer beats 4 ≤ 12 := by
    unfold total_duration_with_buffer
    match beats with
    | [] => norm_num
    | b :: bs => exact quantize_le_twelve _
  have hmem : total_duration_with_buffer beats 4 = 4 ∨
      total_duration_with_buffer beats 4 = 8 ∨
      total_duration_with_buffer beats 4 = 12 := by
    unfold total_duration_with_buffer
    match beats with
    | [] => norm_num
    | b :: bs => exact quantize_mem_values _
  have hmin : sora_fallback_target beats 4 = total_duration_with_buffer beats 4 := by
    unfold sora_fallback_target
    exact min_eq_left (by linarith)
  refine ⟨hmin, ?_, hle⟩
  rw [hmin]
  rcases hmem with h | h | h <;> rw [h] <;> simp

/-! Local placeholder path: generate_video_from_structured_scene. -/

/-- The sorting key of a beat: b.get("order", 0). -/
def orderKey (b : Beat) : Int := b.order.getD 0

/-- The comparison used by sorted(beats, key = lambda b: b.get("order", 0)). -/
def beatLE (a b : Beat) : Prop := orderKey a ≤ orderKey b

instance : DecidableRel beatLE := fun a b =>
  inferInstanceAs (Decidable (orderKey a ≤ orderKey b))

instance : IsTotal Beat beatLE := ⟨fun a b => le_total (orderKey a) (orderKey b)⟩

instance : IsTrans Beat beatLE := ⟨fun _ _ _ h1 h2 => le_trans h1 h2⟩

/-- Models the Python builtin sorted(beats, key = lambda b: b.get("order", 0)):
a stable ascending sort by the order key (insertion sort is stable and
ascending, like the sort the Python runtime specifies). -/
def py_sorted_beats (beats : List Beat) : List Beat :=
  List.insertionSort beatLE beats

/-- Embeds the beat validation and ordering of
generate_video_from_structured_scene: an empty (or missing) beats list
raises ValueError before any rendering; otherwise one frame clip is
rendered per beat, iterating over the beats sorted ascending by order, and
the clips are concatenated in that iteration order.  The returned list is
the concatenation order of the per-beat clips; the rendering of each frame
is a media-library effect orthogonal to every claim. -/
def generate_video_from_structured_scene (scene : Scene) : Except String (List Beat) :=
  match scene.beats with
  | [] => .error "No beats found in structured scene."
  | _ => .ok (py_sorted_beats scene.beats)

/-! Sora per-beat path: generate_video_with_sora and its helpers. -/

/-- Python truthiness fallback x or y on optional byte strings: None and
empty byte strings are falsy. -/
def pyOrBytes (a b : Option Bytes) : Option Bytes :=
  match a with
  | some v => if v = [] then b else some v
  | none => b

/-- Python truthiness of an optional byte string. -/
def pyTruthyBytes : Option Bytes → Bool
  | some v => v ≠ []
  | none => false

/-- A parsed video clip as the media library exposes it to
_extract_last_frame_as_png: a duration, a frame rate and a frame accessor.
Frames are abstract (identified by a natural number). -/
structure Clip where
  duration : ℚ
  fps : ℚ
  getFrame : ℚ → Nat

/-- The arguments of one call_sora_video invocation that the claims
constrain: the requested duration and the reference image in raw-bytes and
data-URL form.  The prompt string and resolution are passed unchanged
alongside and are not constrained by any claim. -/
structure SoraRequest where
  duration : ℚ
  imageBytes : Option Bytes
  imageUrl : Option String
deriving DecidableEq

/-- The external effects of the pipeline, as total oracle functions: the
remote video endpoint (submission plus polling, which can fail), the media
library (clip parsing, which returns none on any open or decode failure,
PNG encoding, reference resizing), base64, and the composite reference
image on disk. -/
structure World where
  callSora : SoraRequest → Except String Bytes
  parseClip : Bytes → Option Clip
  pngEncode : Nat → Bytes
  b64encode : Bytes → String
  resizeRef : Bytes → Bytes
  compositeFile : Option Bytes

/-- Embeds the timestamp computation of _extract_last_frame_as_png:
duration = clip.duration or 0, fps = clip.fps or 24, timestamp =
max(0, duration - 1/max(fps, 1)), sampled at that timestamp when the
duration is positive and at 0 otherwise. -/
def last_frame_timestamp (c : Clip) : ℚ :=
  if 0 < c.duration then
    max 0 (c.duration - 1 / max (if c.fps = 0 then 24 else c.fps) 1)
  else 0

/-- Embeds _extract_last_frame_as_png: parse the stored segment, grab the
frame at the last displayable timestamp and PNG-encode it; any failure in
the media library yields None instead of raising. -/
def extract_last_frame_as_png (θ : World) (video : Bytes) : Option Bytes :=
  match θ.parseClip video with
  | none => none
  | some c => some (θ.pngEncode (c.getFrame (last_frame_timestamp c)))

/-- Embeds _encode_image_to_data_url: None (or empty) bytes give None,
otherwise a data URL wrapping the base64 payload. -/
def encode_image_to_data_url (θ : World) : Option Bytes → Option String
  | none => none
  | some b => if b = [] then none else some ("data:image/png;base64," ++ θ.b64encode b)

/-- The continuity seed threaded through the per-beat loop: the current
reference image bytes and data-URL form. -/
structure Seed where
  bytes : Option Bytes
  url : Option String
deriving DecidableEq

/-- The request built for one beat inside the per-beat loop of
generate_video_with_sora: buffered quantized duration plus the current
seed in both forms. -/
def mk_segment_request (beat : Beat) (seconds_per_beat : ℚ) (s : Seed) : SoraRequest :=
  { duration := beat_duration_with_buffer beat seconds_per_beat
    imageBytes := s.bytes
    imageUrl := s.url }

/-- Embeds the two seed-update statements at the end of each loop
iteration: seed_image_bytes = extract or previous, and the data URL is
re-encoded whenever the bytes are truthy. -/
def update_seed (θ : World) (s : Seed) (video : Bytes) : Seed :=
  let bytes := pyOrBytes (extract_last_frame_as_png θ video) s.bytes
  let url := if pyTruthyBytes bytes then encode_image_to_data_url θ bytes else s.url
  { bytes := bytes, url := url }

/-- One completed loop iteration: the beat rendered, the request issued for
it, the resulting segment bytes, and the seed before and after. -/
structure SegEntry where
  beat : Beat
  req : SoraRequest
  video : Bytes
  seedIn : Seed
  seedOut : Seed
deriving DecidableEq

/-- Embeds the per-beat loop of generate_video_with_sora: for each beat of
segments = [[b] for b in beats], in list order, submit one request seeded
with the current reference image, store the clip, and update the seed from
the last frame of the completed segment.  A submission failure propagates
and aborts the run. -/
def sora_segment_loop (θ : World) (seconds_per_beat : ℚ) :
    Seed → List Beat → Except String (List SegEntry)
  | _, [] => .ok []
  | s, b :: rest =>
    let req := mk_segment_request b seconds_per_beat s
    match θ.callSora req with
    | .error e => .error e
    | .ok video =>
      let s2 := update_seed θ s video
      match sora_segment_loop θ seconds_per_beat s2 rest with
      | .error e => .error e
      | .ok tr => .ok ({ beat := b, req := req, video := video, seedIn := s, seedOut := s2 } :: tr)

/-- Builds the initial seed from resolved reference bytes: the data-URL form
is derived from truthy bytes, and the seed URL falls back to the caller
image_url (seed_image_data_url = reference_image_data_url or image_url). -/
def seed_of_ref (θ : World) (ref1 : Option Bytes) (image_url : Option String) : Seed :=
  { bytes := ref1
    url := match (if pyTruthyBytes ref1 then encode_image_to_data_url θ ref1 else none) with
           | some u => some u
           | none => image_url }

/-- Embeds the reference-image resolution at the top of
generate_video_with_sora: take the caller bytes if not None, else the
composite file on disk; resize truthy bytes to the target resolution;
derive the data URL; the seed URL falls back to the caller image_url. -/
def initial_seed (θ : World) (image_bytes : Option Bytes) (image_url : Option String) : Seed :=
  let ref0 : Option Bytes :=
    match image_bytes with
    | some b => some b
    | none => θ.compositeFile
  let ref1 : Option Bytes :=
    if pyTruthyBytes ref0 then ref0.map θ.resizeRef else none
  seed_of_ref θ ref1 image_url

/-- The observable outcome of generate_video_with_sora: the per-beat trace
(whose order is the order segment files are stored and concatenated in), or
the single fallback request issued when there are no beats, or a propagated
submission failure. -/
inductive SoraOutcome where
  | perBeat (trace : List SegEntry)
  | fallbackReq (req : SoraRequest)
  | failed (err : String)
deriving DecidableEq

/-- Embeds generate_video_with_sora: with beats present, run the per-beat
loop on the beats in input array order; with no beats, issue the single
whole-scene fallback request with the capped fallback target duration. -/
def generate_video_with_sora (θ : World) (scene : Scene) (seconds_per_beat : ℚ)
    (image_bytes : Option Bytes) (image_url : Option String) : SoraOutcome :=
  let seed0 := initial_seed θ image_bytes image_url
  match scene.beats with
  | [] =>
    .fallbackReq { duration := sora_fallback_target scene.beats seconds_per_beat
                   imageBytes := seed0.bytes
                   imageUrl := seed0.url }
  | _ =>
    match sora_segment_loop θ seconds_per_beat seed0 scene.beats with
    | .ok tr => .perBeat tr
    | .error e => .failed e

/-- Structure of a successful per-beat run: the trace lists the beats in
input order, every entry records the request built from its incoming seed
and the seed update from its own segment, the first entry starts from the
initial seed, and each seed is handed to the next iteration unchanged. -/
theorem sora_segment_loop_structure (θ : World) (spb : ℚ) :
    ∀ (beats : List Beat) (seed : Seed) (tr : List SegEntry),
      sora_segment_loop θ spb seed beats = .ok tr →
      tr.map SegEntry.beat = beats ∧
      (∀ e ∈ tr, e.req = mk_segment_request e.beat spb e.seedIn ∧
        e.seedOut = update_seed θ e.seedIn e.video ∧ θ.callSora e.req = .ok e.video) ∧
      (∀ x, tr.head? = some x → x.seedIn = seed) ∧
      List.Chain' (fun a b => b.seedIn = a.seedOut) tr := by
  intro beats
  induction beats with
  | nil =>
    intro seed tr h
    simp only [sora_segment_loop] at h
    cases h
    simp
  | cons b rest ih =>
    intro seed tr h
    simp only [sora_segment_loop] at h
    cases hc : θ.callSora (mk_segment_request b spb seed) with
    | error e => rw [hc] at h; simp at h
    | ok video =>
      rw [hc] at h
      simp only [] at h
      cases hr : sora_segment_loop θ spb (update_seed θ seed video) rest with
      | error e => rw [hr] at h; simp at h
      | ok tr2 =>
        rw [hr] at h
        simp only [Except.ok.injEq] at h
        subst h
        obtain ⟨hmap, hentries, hhead, hchain⟩ := ih (update_seed θ seed video) tr2 hr
        refine ⟨by simpa using hmap, ?_, ?_, ?_⟩
        · intro e he
          rcases List.mem_cons.mp he with rfl | he2
          · exact ⟨rfl, rfl, hc⟩
          · exact hentries e he2
        · intro x hx
          simp only [List.head?_cons, Option.some.injEq] at hx
          rw [← hx]
        · refine List.chain'_cons'.mpr ⟨?_, hchain⟩
          intro y hy
          exact hhead y hy

/-- Beats used in concrete checks: order n with a padded duration of 4
seconds. -/
def beatOrd (n : Int) : Beat :=
  { order := some n, padded_duration_seconds := .num 4, duration_seconds := .noneVal }

/-- A concrete oracle world for concrete runs: submissions always return
the byte string [5], every stored segment parses to a one-second 24 fps
clip whose frames are all frame 3, and PNG encoding of frame n is [n, 9]. -/
def demoClip : Clip := { duration := 1, fps := 24, getFrame := fun _ => 3 }

def demoWorld : World :=
  { callSora := fun _ => .ok [5]
    parseClip := fun _ => some demoClip
    pngEncode := fun n => [n, 9]
    b64encode := fun _ => "QQ=="
    resizeRef := fun b => b
    compositeFile := none }

/-- The same world with a media library that fails to parse any segment, so
continuity-frame extraction always fails. -/
def demoWorldNoFrame : World :=
  { demoWorld with parseClip := fun _ => none }

/-- C3 (amended): the local placeholder path processes and assembles beats
sorted ascending by order; the Sora per-beat path processes, submits and
assembles segments in the order of the input beats array (which matches the
sorted order only when the input is already sorted). -/
theorem beat_order_amended (θ : World) (scene : Scene) (spb : ℚ)
    (ib : Option Bytes) (iu : Option String) :
    (∀ l, generate_video_from_structured_scene scene = .ok l →
      l.Perm scene.beats ∧ List.Sorted beatLE l) ∧
    (∀ tr, generate_video_with_sora θ scene spb ib iu = .perBeat tr →
      tr.map SegEntry.beat = scene.beats) := by
  constructor
  · intro l hl
    unfold generate_video_from_structured_scene at hl
    cases hsb : scene.beats with
    | nil => rw [hsb] at hl; cases hl
    | cons b bs =>
      rw [hsb] at hl
      simp only [] at hl
      cases hl
      exact ⟨List.perm_insertionSort beatLE _, List.sorted_insertionSort beatLE _⟩
  · intro tr htr
    unfold generate_video_with_sora at htr
    cases hsb : scene.beats with
    | nil => rw [hsb] at htr; cases htr
    | cons b bs =>
      rw [hsb] at htr
      simp only [] at htr
      cases hloop : sora_segment_loop θ spb (initial_seed θ ib iu) (b :: bs) with
      | error e => rw [hloop] at htr; cases htr
      | ok tr2 =>
        rw [hloop] at htr
        cases htr
        exact (sora_segment_loop_structure θ spb (b :: bs) _ _ hloop).1

theorem beat_order_amended_witness :
    ([beatOrd 1] : List Beat).Perm [beatOrd 1] ∧ List.Sorted beatLE [beatOrd 1] :=
  (beat_order_amended demoWorld ⟨[beatOrd 1]⟩ 4 none none).1 [beatOrd 1] (by rfl)

/-- Projection used to exhibit the Sora processing order: the beat order
values of the trace, in submission and assembly order. -/
def sora_trace_orders : SoraOutcome → Option (List (Option Int))
  | .perBeat tr => some (tr.map fun e => e.beat.order)
  | _ => none

/-- C3 counterexample: with beats supplied as [order 2, order 1], the Sora
per-beat path submits and assembles the segments in input order [2, 1],
not in the sorted order [1, 2] the claim requires on every path. -/
theorem beat_order_counterexample :
    sora_trace_orders (generate_video_with_sora demoWorld ⟨[beatOrd 2, beatOrd 1]⟩ 4 none none) =
      some [some 2, some 1] ∧
    (py_sorted_beats [beatOrd 2, beatOrd 1]).map (fun b => b.order) = [some 1, some 2] ∧
    (some [some 2, some 1] : Option (List (Option Int))) ≠ some [some 1, some 2] := by
  refine ⟨by decide, by decide, by decide⟩

/-- C9 (amended): on the local placeholder path a scene with an empty or
missing beats list fails with ValueError before any rendering; on the Sora
path an empty or missing beats list does not fail but instead issues the
single whole-scene fallback generation request. -/
theorem empty_beats_amended (θ : World) (scene : Scene) (spb : ℚ)
    (ib : Option Bytes) (iu : Option String) (h : scene.beats = []) :
    generate_video_from_structured_scene scene = .error "No beats found in structured scene." ∧
    generate_video_with_sora θ scene spb ib iu =
      .fallbackReq { duration := sora_fallback_target [] spb
                     imageBytes := (initial_seed θ ib iu).bytes
                     imageUrl := (initial_seed θ ib iu).url } := by
  constructor
  · unfold generate_video_from_structured_scene
    rw [h]
  · unfold generate_video_with_sora
    rw [h]

theorem empty_beats_amended_witness :
    generate_video_from_structured_scene ⟨[]⟩ = .error "No beats found in structured scene." :=
  (empty_beats_amended demoWorld ⟨[]⟩ 4 none none rfl).1

/-- C9 counterexample: invoking the Sora generation path on a scene whose
beats list is empty issues the single fallback generation request (with the
quantized 4-second default duration) instead of failing with an error. -/
theorem empty_beats_counterexample :
    generate_video_with_sora demoWorld ⟨[]⟩ 4 none none =
      .fallbackReq { duration := 4, imageBytes := none, imageUrl := none } := by
  decide

/-- On a well-formed clip (frame rate at least 1, duration either 0 or at
least one frame interval) the code timestamp equals the specified
last-displayable-frame timestamp: duration minus one frame interval, or 0
for a zero-length clip. -/
theorem last_frame_timestamp_eq (c : Clip) (hfps : 1 ≤ c.fps)
    (hdur : c.duration = 0 ∨ 1 / c.fps ≤ c.duration) :
    last_frame_timestamp c = if c.duration = 0 then 0 else c.duration - 1 / c.fps := by
  have hfps0 : c.fps ≠ 0 := by linarith
  have hfpspos : 0 < c.fps := by linarith
  unfold last_frame_timestamp
  rcases hdur with hd | hd
  · rw [hd]
    norm_num
  · have hone : 0 < 1 / c.fps := by positivity
    have hpos : 0 < c.duration := lt_of_lt_of_le hone hd
    rw [if_pos hpos, if_neg hfps0, max_eq_left hfps, if_neg (by linarith),
      max_eq_right (by linarith)]

/-- A successful continuity-frame extraction with a nonempty PNG updates the
seed to exactly that PNG in raw-bytes and data-URL form. -/
theorem update_seed_extract_some (θ : World) (s : Seed) (video : Bytes) (png : Bytes)
    (hex : extract_last_frame_as_png θ video = some png) (hne : png ≠ []) :
    update_seed θ s video =
      { bytes := some png, url := some ("data:image/png;base64," ++ θ.b64encode png) } := by
  unfold update_seed
  rw [hex]
  simp [pyOrBytes, pyTruthyBytes, encode_image_to_data_url, hne]

/-- C1: in a multi-beat Sora run, the reference image submitted with every
beat after the first, in both raw-bytes and data-URL form, equals the PNG
encoding of the last displayable frame of the immediately preceding
completed segment, taken at timestamp clip duration minus one frame
interval (or 0 when the clip duration is 0); in particular it differs from
the original composite reference image whenever that PNG differs from it.
The hypotheses say the preceding segment decodes to a well-formed clip and
the encoded PNG is nonempty. -/
theorem sora_continuity_chain (θ : World) (scene : Scene) (spb : ℚ)
    (ib : Option Bytes) (iu : Option String) (tr : List SegEntry) (i : ℕ)
    (hrun : generate_video_with_sora θ scene spb ib iu = .perBeat tr)
    (hi : i + 1 < tr.length)
    (c : Clip)
    (hc : θ.parseClip (tr.get ⟨i, Nat.lt_of_succ_lt hi⟩).video = some c)
    (hfps : 1 ≤ c.fps)
    (hdur : c.duration = 0 ∨ 1 / c.fps ≤ c.duration)
    (hpng : θ.pngEncode (c.getFrame (if c.duration = 0 then 0 else c.duration - 1 / c.fps)) ≠ []) :
    (tr.get ⟨i + 1, hi⟩).req.imageBytes =
      some (θ.pngEncode (c.getFrame (if c.duration = 0 then 0 else c.duration - 1 / c.fps))) ∧
    (tr.get ⟨i + 1, hi⟩).req.imageUrl =
      some ("data:image/png;base64," ++
        θ.b64encode (θ.pngEncode (c.getFrame (if c.duration = 0 then 0 else c.duration - 1 / c.fps)))) ∧
    (∀ composite : Bytes,
      θ.pngEncode (c.getFrame (if c.duration = 0 then 0 else c.duration - 1 / c.fps)) ≠ composite →
      (tr.get ⟨i + 1, hi⟩).req.imageBytes ≠ some composite) := by
  have hloop : sora_segment_loop θ spb (initial_seed θ ib iu) scene.beats = .ok tr := by
    unfold generate_video_with_sora at hrun
    cases hsb : scene.beats with
    | nil => rw [hsb] at hrun; cases hrun
    | cons b bs =>
      rw [hsb] at hrun
      simp only [] at hrun
      cases hloop2 : sora_segment_loop θ spb (initial_seed θ ib iu) (b :: bs) with
      | error e => rw [hloop2] at hrun; cases hrun
      | ok tr2 =>
        rw [hloop2] at hrun
        cases hrun
        first
        | exact hloop2
        | rfl
  obtain ⟨hmap, hentries, hhead, hchain⟩ :=
    sora_segment_loop_structure θ spb scene.beats _ tr hloop
  have hstep : (tr.get ⟨i + 1, hi⟩).seedIn = (tr.get ⟨i, Nat.lt_of_succ_lt hi⟩).seedOut := by
    have := List.chain'_iff_get.mp hchain i (by omega)
    exact this
  have hmemi : tr.get ⟨i, Nat.lt_of_succ_lt hi⟩ ∈ tr := List.get_mem tr _ _
  have hmemi1 : tr.get ⟨i + 1, hi⟩ ∈ tr := List.get_mem tr _ _
  obtain ⟨hreqi, houti, _⟩ := hentries _ hmemi
  obtain ⟨hreqi1, _, _⟩ := hentries _ hmemi1
  have hex : extract_last_frame_as_png θ (tr.get ⟨i, Nat.lt_of_succ_lt hi⟩).video =
      some (θ.pngEncode (c.getFrame (if c.duration = 0 then 0 else c.duration - 1 / c.fps))) := by
    unfold extract_last_frame_as_png
    rw [hc]
    show some (θ.pngEncode (c.getFrame (last_frame_timestamp c))) = _
    rw [last_frame_timestamp_eq c hfps hdur]
  have hout : (tr.get ⟨i, Nat.lt_of_succ_lt hi⟩).seedOut =
      { bytes := some (θ.pngEncode (c.getFrame (if c.duration = 0 then 0 else c.duration - 1 / c.fps)))
        url := some ("data:image/png;base64," ++
          θ.b64encode (θ.pngEncode (c.getFrame (if c.duration = 0 then 0 else c.duration - 1 / c.fps)))) } := by
    rw [houti]
    exact update_seed_extract_some θ _ _ _ hex hpng
  have hbytes : (tr.get ⟨i + 1, hi⟩).req.imageBytes =
      some (θ.pngEncode (c.getFrame (if c.duration = 0 then 0 else c.duration - 1 / c.fps))) := by
    rw [hreqi1]
    show (tr.get ⟨i + 1, hi⟩).seedIn.bytes = _
    rw [hstep, hout]
  refine ⟨hbytes, ?_, ?_⟩
  · rw [hreqi1]
    show (tr.get ⟨i + 1, hi⟩).seedIn.url = _
    rw [hstep, hout]
  · intro composite hne hcontra
    rw [hbytes] at hcontra
    exact hne (Option.some.injEq _ _ ▸ hcontra)

/-- The concrete two-beat trace produced by demoWorld, used to instantiate
the continuity theorem at a concrete input. -/
def demoSeed1 : Seed :=
  { bytes := some [3, 9], url := some "data:image/png;base64,QQ==" }

def demoTrace : List SegEntry :=
  [ { beat := beatOrd 1
      req := { duration := 4, imageBytes := none, imageUrl := none }
      video := [5]
      seedIn := { bytes := none, url := none }
      seedOut := demoSeed1 }
  , { beat := beatOrd 2
      req := { duration := 4, imageBytes := some [3, 9],
               imageUrl := some "data:image/png;base64,QQ==" }
      video := [5]
      seedIn := demoSeed1
      seedOut := demoSeed1 } ]

theorem sora_continuity_chain_witness :
    (demoTrace.get ⟨1, by decide⟩).req.imageBytes = some [3, 9] :=
  (sora_continuity_chain demoWorld ⟨[beatOrd 1, beatOrd 2]⟩ 4 none none demoTrace 0
    (by decide) (by decide) demoClip rfl (by norm_num [demoClip])
    (Or.inr (by norm_num [demoClip])) (by decide)).1

/-- A seed is URL-consistent when its data-URL form is the encoding of its
byte form whenever the bytes are truthy; every seed the pipeline builds is. -/
def seed_url_consistent (θ : World) (s : Seed) : Prop :=
  pyTruthyBytes s.bytes = true → s.url = encode_image_to_data_url θ s.bytes

theorem update_seed_consistent (θ : World) (s : Seed) (video : Bytes) :
    seed_url_consistent θ (update_seed θ s video) := by
  intro htruthy
  unfold update_seed at htruthy ⊢
  simp only [] at htruthy ⊢
  rw [if_pos htruthy]

theorem seed_of_ref_consistent (θ : World) (ref1 : Option Bytes) (iu : Option String) :
    seed_url_consistent θ (seed_of_ref θ ref1 iu) := by
  intro htruthy
  have hb : pyTruthyBytes ref1 = true := htruthy
  show (seed_of_ref θ ref1 iu).url = encode_image_to_data_url θ (seed_of_ref θ ref1 iu).bytes
  cases ref1 with
  | none => simp [pyTruthyBytes] at hb
  | some b =>
    have hbne : b ≠ [] := by simpa [pyTruthyBytes] using hb
    show (match (if pyTruthyBytes (some b) then encode_image_to_data_url θ (some b) else none) with
          | some u => some u
          | none => iu) = encode_image_to_data_url θ (some b)
    simp [pyTruthyBytes, encode_image_to_data_url, hbne]

theorem initial_seed_consistent (θ : World) (ib : Option Bytes) (iu : Option String) :
    seed_url_consistent θ (initial_seed θ ib iu) :=
  seed_of_ref_consistent θ _ iu

/-- A failed continuity-frame extraction leaves a URL-consistent seed
entirely unchanged. -/
theorem update_seed_extract_none (θ : World) (s : Seed) (video : Bytes)
    (hex : extract_last_frame_as_png θ video = none)
    (hcons : seed_url_consistent θ s) :
    update_seed θ s video = s := by
  unfold update_seed
  rw [hex]
  simp only [pyOrBytes]
  cases htr : pyTruthyBytes s.bytes with
  | false => simp [htr]
  | true => simp [htr, ← hcons htr]

/-- With submissions that always succeed, the per-beat loop always returns
a full trace, one entry per beat, whatever the extraction oracle does. -/
theorem sora_segment_loop_total (θ : World) (spb : ℚ)
    (hok : ∀ r : SoraRequest, ∃ v, θ.callSora r = .ok v) :
    ∀ (beats : List Beat) (seed : Seed),
      ∃ tr, sora_segment_loop θ spb seed beats = .ok tr ∧ tr.length = beats.length := by
  intro beats
  induction beats with
  | nil => intro seed; exact ⟨[], rfl, rfl⟩
  | cons b rest ih =>
    intro seed
    obtain ⟨v, hv⟩ := hok (mk_segment_request b spb seed)
    obtain ⟨tr2, htr2, hlen⟩ := ih (update_seed θ seed v)
    refine ⟨{ beat := b, req := mk_segment_request b spb seed, video := v,
              seedIn := seed, seedOut := update_seed θ seed v } :: tr2, ?_, by simp [hlen]⟩
    simp only [sora_segment_loop]
    simp [hv, htr2]

/-- Every incoming seed along a successful trace is URL-consistent. -/
theorem trace_seedIn_consistent (θ : World) (spb : ℚ) (beats : List Beat)
    (ib : Option Bytes) (iu : Option String) (tr : List SegEntry)
    (hloop : sora_segment_loop θ spb (initial_seed θ ib iu) beats = .ok tr) :
    ∀ i (h : i < tr.length), seed_url_consistent θ (tr.get ⟨i, h⟩).seedIn := by
  obtain ⟨hmap, hentries, hhead, hchain⟩ :=
    sora_segment_loop_structure θ spb beats _ tr hloop
  intro i h
  match i with
  | 0 =>
    have hhd : tr.head? = some (tr.get ⟨0, h⟩) := by
      cases tr with
      | nil => simp at h
      | cons a l => rfl
    rw [hhead _ hhd]
    exact initial_seed_consistent θ ib iu
  | Nat.succ j =>
    have hstep := List.chain'_iff_get.mp hchain j (by omega)
    have hmem : tr.get ⟨j, by omega⟩ ∈ tr := List.get_mem tr _ _
    obtain ⟨_, hout, _⟩ := hentries _ hmem
    have : (tr.get ⟨j + 1, h⟩).seedIn = (tr.get ⟨j, by omega⟩).seedOut := hstep
    rw [this, hout]
    exact update_seed_consistent θ _ _

/-- C8: when every submission succeeds, a run over a nonempty beats list
always completes with one segment per beat, whatever the frame-extraction
oracle does, and at every step whose continuity-frame extraction fails the
next request carries exactly the previous reference image, in both raw-bytes
and data-URL form. -/
theorem extraction_failure_nonfatal (θ : World) (scene : Scene) (spb : ℚ)
    (ib : Option Bytes) (iu : Option String)
    (hok : ∀ r : SoraRequest, ∃ v, θ.callSora r = .ok v)
    (hne : scene.beats ≠ []) :
    ∃ tr, generate_video_with_sora θ scene spb ib iu = .perBeat tr ∧
      tr.length = scene.beats.length ∧
      ∀ i (hi : i + 1 < tr.length),
        extract_last_frame_as_png θ (tr.get ⟨i, Nat.lt_of_succ_lt hi⟩).video = none →
        (tr.get ⟨i + 1, hi⟩).req.imageBytes = (tr.get ⟨i, Nat.lt_of_succ_lt hi⟩).req.imageBytes ∧
        (tr.get ⟨i + 1, hi⟩).req.imageUrl = (tr.get ⟨i, Nat.lt_of_succ_lt hi⟩).req.imageUrl := by
  obtain ⟨tr, hloop, hlen⟩ :=
    sora_segment_loop_total θ spb hok scene.beats (initial_seed θ ib iu)
  refine ⟨tr, ?_, hlen, ?_⟩
  · unfold generate_video_with_sora
    cases hsb : scene.beats with
    | nil => exact absurd hsb hne
    | cons b bs =>
      rw [hsb] at hloop
      simp only []
      rw [hloop]
  · intro i hi hex
    obtain ⟨hmap, hentries, hhead, hchain⟩ :=
      sora_segment_loop_structure θ spb scene.beats _ tr hloop
    have hcons := trace_seedIn_consistent θ spb scene.beats ib iu tr hloop i
      (Nat.lt_of_succ_lt hi)
    have hstep : (tr.get ⟨i + 1, hi⟩).seedIn = (tr.get ⟨i, Nat.lt_of_succ_lt hi⟩).seedOut :=
      List.chain'_iff_get.mp hchain i (by omega)
    have hmemi : tr.get ⟨i, Nat.lt_of_succ_lt hi⟩ ∈ tr := List.get_mem tr _ _
    have hmemi1 : tr.get ⟨i + 1, hi⟩ ∈ tr := List.get_mem tr _ _
    obtain ⟨hreqi, houti, _⟩ := hentries _ hmemi
    obtain ⟨hreqi1, _, _⟩ := hentries _ hmemi1
    have hsame : (tr.get ⟨i + 1, hi⟩).seedIn = (tr.get ⟨i, Nat.lt_of_succ_lt hi⟩).seedIn := by
      rw [hstep, houti]
      exact update_seed_extract_none θ _ _ hex hcons
    constructor
    · rw [hreqi1, hreqi]
      show (tr.get ⟨i + 1, hi⟩).seedIn.bytes = (tr.get ⟨i, Nat.lt_of_succ_lt hi⟩).seedIn.bytes
      rw [hsame]
    · rw [hreqi1, hreqi]
      show (tr.get ⟨i + 1, hi⟩).seedIn.url = (tr.get ⟨i, Nat.lt_of_succ_lt hi⟩).seedIn.url
      rw [hsame]

theorem extraction_failure_nonfatal_witness :
    ∃ tr, generate_video_with_sora demoWorldNoFrame ⟨[beatOrd 1, beatOrd 2]⟩ 4 none none =
        .perBeat tr ∧
      tr.length = ([beatOrd 1, beatOrd 2] : List Beat).length ∧
      ∀ i (hi : i + 1 < tr.length),
        extract_last_frame_as_png demoWorldNoFrame (tr.get ⟨i, Nat.lt_of_succ_lt hi⟩).video = none →
        (tr.get ⟨i + 1, hi⟩).req.imageBytes = (tr.get ⟨i, Nat.lt_of_succ_lt hi⟩).req.imageBytes ∧
        (tr.get ⟨i + 1, hi⟩).req.imageUrl = (tr.get ⟨i, Nat.lt_of_succ_lt hi⟩).req.imageUrl :=
  extraction_failure_nonfatal demoWorldNoFrame ⟨[beatOrd 1, beatOrd 2]⟩ 4 none none
    (fun r => ⟨[5], rfl⟩) (by decide)

/-! Audio mixer: _overlay_music_to_video. -/

/-- An audio track as the media library exposes it: a playback duration and
an amplitude signal over time. -/
structure Track where
  duration : ℚ
  sample : ℚ → ℚ

/-- Models the media-library audio_loop effect by its documented meaning:
the source signal repeats with period equal to the source duration, and the
playback length becomes the requested target. -/
def audio_loop_fx (a : Track) (target : ℚ) : Track :=
  { duration := target
    sample := fun t => a.sample (t - a.duration * (⌊t / a.duration⌋ : ℤ)) }

/-- Models with_duration / set_duration: the playback length is forced to d
without touching the signal (truncation, no resampling). -/
def with_duration (a : Track) (d : ℚ) : Track :=
  { duration := d, sample := a.sample }

/-- Models volumex: pointwise amplitude scaling, no time change. -/
def volumex (a : Track) (g : ℚ) : Track :=
  { duration := a.duration, sample := fun t => g * a.sample t }

/-- Embeds the audio processing of _overlay_music_to_video: audio duration
falls back to the video duration when falsy; target duration is
max(video duration, expected_duration or 0, 0.1); the music is looped when
shorter than the target, then forced to the trimmed duration (the target
itself when trim_audio is set), then scaled by the fixed 0.25 headroom
gain. -/
def overlay_music_core (video_duration : ℚ) (music : Track) (trim_audio : Bool)
    (expected_duration : Option ℚ) : Track :=
  let audio_duration := if music.duration = 0 then video_duration else music.duration
  let target_duration := max (max video_duration (expected_duration.getD 0)) (1/10)
  let trimmed_duration := if trim_audio then target_duration else audio_duration
  let looped :=
    if audio_duration < target_duration then audio_loop_fx music target_duration else music
  volumex (with_duration looped trimmed_duration) (1/4)

/-- C4 (amended): the mix target duration is max(raw video duration,
externally supplied expected duration, and a 0.1-second floor); a music
track shorter than that target is looped (its signal repeating with its own
period, never resampled) and truncated to exactly the target, and a track
at least as long is only truncated and gain-scaled, never sped up or
pitch-shifted. -/
theorem music_mix_amended (video_duration : ℚ) (music : Track) (expected : Option ℚ)
    (hm : 0 < music.duration) :
    (overlay_music_core video_duration music true expected).duration =
      max (max video_duration (expected.getD 0)) (1/10) ∧
    (music.duration < max (max video_duration (expected.getD 0)) (1/10) →
      ∀ t : ℚ, (overlay_music_core video_duration music true expected).sample t =
        (1/4) * music.sample (t - music.duration * (⌊t / music.duration⌋ : ℤ))) ∧
    (max (max video_duration (expected.getD 0)) (1/10) ≤ music.duration →
      ∀ t : ℚ, (overlay_music_core video_duration music true expected).sample t =
        (1/4) * music.sample t) := by
  have hne : music.duration ≠ 0 := ne_of_gt hm
  refine ⟨?_, ?_, ?_⟩
  · simp [overlay_music_core, with_duration, volumex]
  · intro hlt t
    simp only [overlay_music_core, with_duration, volumex, audio_loop_fx, if_neg hne]
    split
    · rfl
    · exact absurd hlt (by assumption)
  · intro hge t
    have hnlt : ¬(music.duration <
        max (max video_duration (expected.getD 0)) (1/10)) := not_lt.mpr hge
    simp only [overlay_music_core, with_duration, volumex, audio_loop_fx, if_neg hne]
    split
    · exact absurd (by assumption) hnlt
    · rfl

theorem music_mix_amended_witness :
    (overlay_music_core 20 ⟨6, fun _ => 1⟩ true none).duration =
      max (max 20 ((none : Option ℚ).getD 0)) (1/10) :=
  (music_mix_amended 20 ⟨6, fun _ => 1⟩ none (by norm_num)).1

/-- C4 counterexample: at raw video duration 0 with no expected duration,
the mixed music is forced to 0.1 seconds, not to
max(video duration, expected duration) = 0: the code keeps a 0.1-second
floor the claim omits. -/
theorem music_mix_counterexample :
    (overlay_music_core 0 ⟨1, fun _ => 1⟩ true none).duration = 1/10 ∧
    max (0 : ℚ) ((none : Option ℚ).getD 0) = 0 ∧ (1/10 : ℚ) ≠ 0 := by
  refine ⟨?_, by simp, by norm_num⟩
  simp [overlay_music_core, with_duration, volumex]

/-- Embeds the volume clamp of video_generation_page.render: the percent
slider value becomes max(0.0, min(pct / 100.0, 1.0)). -/
def page_music_volume (pct : ℚ) : ℚ := max 0 (min (pct / 100) 1)

/-- Modelled from the spec: the parameterized Audio Mixer revision that
video_generation_page.render invokes (passing music_volume,
music_delay_seconds and music_start_offset_seconds into the generators) is
not part of src — the src _overlay_music_to_video has a fixed 0.25 gain and
no delay or offset parameters.  Following the spec words: target duration is
max(raw video duration, expected duration); playback begins
track_offset_seconds into the music track; if the remaining music is
shorter than target minus start_delay_seconds it is looped, then truncated
to the exact needed duration; the gain is scaled by volume, defaulting to
0.25 when unspecified; the mixed music is silent before
start_delay_seconds of video time. -/
def mix_with_params (video_duration : ℚ) (music : Track) (volume : Option ℚ)
    (start_delay_seconds track_offset_seconds : ℚ)
    (expected_duration : Option ℚ) : Track :=
  let vol := volume.getD (1/4)
  let target := max video_duration (expected_duration.getD 0)
  let needed := target - start_delay_seconds
  let offsetTrack : Track :=
    { duration := music.duration - track_offset_seconds
      sample := fun t => music.sample (t + track_offset_seconds) }
  let looped :=
    if offsetTrack.duration < needed then audio_loop_fx offsetTrack needed else offsetTrack
  let gained := volumex (with_duration looped needed) vol
  { duration := target
    sample := fun t =>
      if t < start_delay_seconds then 0 else gained.sample (t - start_delay_seconds) }

/-- C5: the mixer takes caller-supplied volume in [0, 1] (the page clamps
the slider percentage into [0, 1]), a nonnegative start delay and a
nonnegative track offset; the music is silent before the start delay,
playback begins track-offset seconds into the track, the gain is scaled by
the supplied volume, and an unspecified volume defaults to 0.25, which lies
in the specified 0.2 to 0.25 band.  The no-loop hypothesis keeps the sample
identity in its direct form. -/
theorem audio_mixer_params_spec (video_duration : ℚ) (music : Track) (vol : Option ℚ)
    (delay offset : ℚ) (expected : Option ℚ) (pct : ℚ)
    (hd : 0 ≤ delay) (hoff : 0 ≤ offset)
    (hnoloop : max video_duration (expected.getD 0) - delay ≤ music.duration - offset) :
    (∀ t, t < delay →
      (mix_with_params video_duration music vol delay offset expected).sample t = 0) ∧
    (∀ v, vol = some v → ∀ t, delay ≤ t →
      (mix_with_params video_duration music vol delay offset expected).sample t =
        v * music.sample ((t - delay) + offset)) ∧
    (vol = none → ∀ t, delay ≤ t →
      (mix_with_params video_duration music vol delay offset expected).sample t =
        (1/4) * music.sample ((t - delay) + offset)) ∧
    ((1 : ℚ)/5 ≤ (none : Option ℚ).getD (1/4) ∧ ((none : Option ℚ).getD (1/4) : ℚ) ≤ 1/4) ∧
    (0 ≤ page_music_volume pct ∧ page_music_volume pct ≤ 1) := by
  have hnlt : ¬(music.duration - offset < max video_duration (expected.getD 0) - delay) :=
    not_lt.mpr hnoloop
  refine ⟨?_, ?_, ?_, ⟨by norm_num, by norm_num⟩, ?_⟩
  · intro t ht
    simp [mix_with_params, ht]
  · intro v hv t ht
    subst hv
    have hnge : ¬(t < delay) := not_lt.mpr ht
    simp [mix_with_params, with_duration, volumex, hnlt, hnge]
  · intro hv t ht
    subst hv
    have hnge : ¬(t < delay) := not_lt.mpr ht
    simp [mix_with_params, with_duration, volumex, hnlt, hnge]
  · exact ⟨le_max_left 0 _, max_le (by norm_num) (min_le_right _ _)⟩

theorem audio_mixer_params_spec_witness :
    (mix_with_params 10 ⟨30, fun _ => 1⟩ (some (1/2)) 2 3 none).sample 1 = 0 :=
  (audio_mixer_params_spec 10 ⟨30, fun _ => 1⟩ (some (1/2)) 2 3 none 50
    (by norm_num) (by norm_num)
    (by simp only [Option.getD_none]; norm_num [max_def])).1 1 (by norm_num)

/-! File replacement protocol of _overlay_music_to_video. -/

/-- A filesystem restricted to what the mixer touches: a map from paths to
optional file contents. -/
def FS : Type := String → Option Bytes

/-- Point update of the filesystem map (a write for some content, an unlink
or rename-away for none). -/
def fsSet (fs : FS) (p : String) (v : Option Bytes) : FS :=
  fun q => if q = p then v else fs q

/-- Helper for the with_suffix model: does the character list contain a
dot. -/
def has_dot (cs : List Char) : Bool := cs.contains (Char.ofNat 46)

/-- Helper for the with_suffix model: remove the suffix that starts at the
last dot (everything is kept when there is no dot). -/
def drop_last_ext : List Char → List Char
  | [] => []
  | c :: rest =>
    if c = Char.ofNat 46 && !has_dot rest then [] else c :: drop_last_ext rest

/-- Models pathlib Path.with_suffix on the file names the mixer uses (a
nonempty stem with an extension): drop the final extension and append the
new suffix. -/
def py_with_suffix (p suf : String) : String :=
  String.mk (drop_last_ext p.data) ++ suf

/-- The encoder outcome of one mixing run: success with the encoded bytes,
or a crash that may have left arbitrary leftover content (possibly none)
at the temporary path. -/
inductive EncodeOutcome where
  | ok (b : Bytes)
  | crashed (leftover : Option Bytes)

/-- Embeds the file protocol of _overlay_music_to_video: the encoder writes
to temp_out = output_path.with_suffix(".tmp.mp4"); only after a successful
encode is the destination unlinked and the temporary file renamed onto it;
on a crash the exception propagates (first component false) after the
best-effort cleanup of the finally block, which unlinks the temporary file
only when the destination path does not exist. -/
def overlay_music_file_effect (output_path : String) (enc : EncodeOutcome) (fs : FS) :
    Bool × FS :=
  let temp_out := py_with_suffix output_path ".tmp.mp4"
  match enc with
  | .ok b =>
    let fs1 := fsSet fs temp_out (some b)
    let fs2 := fsSet fs1 output_path none
    let fs3 := fsSet (fsSet fs2 temp_out none) output_path (some b)
    (true, fs3)
  | .crashed leftover =>
    let fs1 := fsSet fs temp_out leftover
    let fs2 :=
      if (fs1 temp_out).isSome && (fs1 output_path).isNone then fsSet fs1 temp_out none
      else fs1
    (false, fs2)

/-- C6: the mixer writes the encoded result to a temporary path and
replaces the destination only after the encode succeeds; in every run where
the encoder fails, the content at the canonical output path (whatever was
there before, if anything) is left untouched and the failure propagates. -/
theorem music_mix_atomic_replace (output_path : String) (fs : FS) (b : Bytes)
    (leftover : Option Bytes)
    (hne : py_with_suffix output_path ".tmp.mp4" ≠ output_path) :
    (overlay_music_file_effect output_path (.crashed leftover) fs).2 output_path =
      fs output_path ∧
    (overlay_music_file_effect output_path (.crashed leftover) fs).1 = false ∧
    (overlay_music_file_effect output_path (.ok b) fs).2 output_path = some b := by
  have hne2 : output_path ≠ py_with_suffix output_path ".tmp.mp4" := fun h => hne h.symm
  refine ⟨?_, rfl, ?_⟩
  · show (let fs1 := fsSet fs (py_with_suffix output_path ".tmp.mp4") leftover
      let fs2 :=
        if (fs1 (py_with_suffix output_path ".tmp.mp4")).isSome &&
            (fs1 output_path).isNone then
          fsSet fs1 (py_with_suffix output_path ".tmp.mp4") none
        else fs1
      fs2) output_path = fs output_path
    simp only []
    split
    · simp [fsSet, hne2]
    · simp [fsSet, hne2]
  · simp [overlay_music_file_effect, fsSet]

theorem music_mix_atomic_replace_witness :
    (overlay_music_file_effect "a.mp4" (.crashed (some [7])) (fun _ => some [1])).2 "a.mp4" =
      (fun _ => some ([1] : Bytes)) "a.mp4" :=
  (music_mix_atomic_replace "a.mp4" (fun _ => some [1]) [2] (some [7]) (by decide)).1

/-! Remote job polling: _poll_sora_job and its media extraction chain. -/

/-- Python truthiness fallback x or y on optional strings: None and the
empty string are falsy. -/
def pyOrStr (a b : Option String) : Option String :=
  match a with
  | some s => if s = "" then b else some s
  | none => b

/-- A JSON object carrying url / download_url fields (a missing, None or
non-dict value is modelled as none at the use sites). -/
structure UrlDict where
  url : Option String
  download_url : Option String
deriving DecidableEq

/-- One entry of the videos files listing: mime type and filename (empty
string when missing), file id, download_url and url fields. -/
structure SoraFileItem where
  mime_type : String
  filename : String
  id : Option String
  download_url : Option String
  url : Option String
deriving DecidableEq

/-- One GET of the job status endpoint: HTTP status code and the parsed
body fields _poll_sora_job reads.  A video or result value that is a falsy
or non-dict object is modelled as none carrying no urls. -/
structure PollHttp where
  statusCode : Nat
  status : Option String
  state : Option String
  video : Option UrlDict
  result : Option UrlDict
  dataItems : List UrlDict
deriving DecidableEq

/-- The files listing endpoint: HTTP status code and items. -/
structure FilesHttp where
  statusCode : Nat
  items : List SoraFileItem
deriving DecidableEq

/-- The remote state of one polled job: the status response of each poll
attempt, the files listing, per-file content fetches (none models a
non-200 response) and the generic content endpoint. -/
structure JobWorld where
  poll : Nat → PollHttp
  files : FilesHttp
  fileContent : String → Option Bytes
  jobContent : Option Bytes

/-- The state string of a poll body: pdata.get("status") or
pdata.get("state"), with missing or empty values falling through. -/
def poll_state (r : PollHttp) : String :=
  (pyOrStr r.status r.state).getD ""

/-- A downloadable media reference: a URL or raw bytes. -/
inductive MediaRef where
  | url (u : String)
  | bytes (b : Bytes)
deriving DecidableEq

/-- The observable outcome of _poll_sora_job: media, a poll HTTP failure, a
completed job with no extractable media, a failed job, or a timeout. -/
inductive PollOutcome where
  | media (m : MediaRef)
  | pollHttpError (code : Nat)
  | emptyResult
  | jobFailed
  | timedOut
deriving DecidableEq

/-- The embedded result URL of a successful poll body: the url or
download_url of the video (or, when that is falsy, the result) object. -/
def embedded_video_url (r : PollHttp) : Option String :=
  match r.video with
  | some d => pyOrStr d.url d.download_url
  | none =>
    match r.result with
    | some d => pyOrStr d.url d.download_url
    | none => none

/-- The first truthy url or download_url among the data items of a
successful poll body. -/
def data_items_url (r : PollHttp) : Option String :=
  r.dataItems.findSome? fun d => pyOrStr d.url d.download_url

/-- Whether a files entry is a video: "video" in mime_type or the filename
ends with ".mp4". -/
def is_video_item (it : SoraFileItem) : Bool :=
  ((it.mime_type.splitOn "video").length != 1) || it.filename.endsWith ".mp4"

/-- Embeds _fetch_sora_download_url: on a good files listing, the first
video entry decides — its download_url or url, possibly none. -/
def fetch_sora_download_url (w : JobWorld) : Option String :=
  if 300 ≤ w.files.statusCode then none
  else
    match w.files.items.find? is_video_item with
    | some it => pyOrStr it.download_url it.url
    | none => none

/-- Embeds _fetch_sora_file_content: on a good files listing, fetch the
content of each video entry with a truthy id in turn and return the first
200 response body. -/
def fetch_sora_file_content (w : JobWorld) : Option Bytes :=
  if 300 ≤ w.files.statusCode then none
  else
    w.files.items.findSome? fun it =>
      if is_video_item it then
        match it.id with
        | some fid => if fid = "" then none else w.fileContent fid
        | none => none
      else none

/-- Embeds _fetch_sora_job_content: the generic content endpoint body on a
200 response, none otherwise. -/
def fetch_sora_job_content (w : JobWorld) : Option Bytes :=
  w.jobContent

/-- Embeds the extraction chain run on a terminal-success poll body, in the
source order: embedded video/result URL, data items URL, files download
URL, fetched file content, generic job content, and otherwise the
no-video-url failure. -/
def extract_media_on_success (w : JobWorld) (r : PollHttp) : PollOutcome :=
  match embedded_video_url r with
  | some u => .media (.url u)
  | none =>
    match data_items_url r with
    | some u => .media (.url u)
    | none =>
      match fetch_sora_download_url w with
      | some u => .media (.url u)
      | none =>
        match fetch_sora_file_content w with
        | some b => .media (.bytes b)
        | none =>
          match fetch_sora_job_content w with
          | some b => .media (.bytes b)
          | none => .emptyResult

/-- Embeds the polling loop of _poll_sora_job: up to the given fuel of
attempts, fail on a non-2xx poll, return the extracted media on a terminal
success state, raise on failed or error, and otherwise sleep two seconds
and retry.  The second component is the total seconds slept. -/
def poll_sora_job_go (w : JobWorld) : Nat → Nat → Nat → PollOutcome × Nat
  | _, 0, elapsed => (.timedOut, elapsed)
  | attempt, fuel + 1, elapsed =>
    let r := w.poll attempt
    if 300 ≤ r.statusCode then (.pollHttpError r.statusCode, elapsed)
    else
      let s := poll_state r
      if s = "succeeded" || s = "completed" || s = "ready" then
        (extract_media_on_success w r, elapsed)
      else if s = "failed" || s = "error" then (.jobFailed, elapsed)
      else poll_sora_job_go w (attempt + 1) fuel (elapsed + 2)

/-- Embeds _poll_sora_job: 180 attempts starting at zero elapsed time. -/
def poll_sora_job (w : JobWorld) : PollOutcome × Nat :=
  poll_sora_job_go w 0 180 0

/-- A poll response that keeps the loop waiting: a 2xx code and a state
outside both terminal sets. -/
def nonterminal_resp (r : PollHttp) : Prop :=
  r.statusCode < 300 ∧
  poll_state r ∉ (["succeeded", "completed", "ready"] : List String) ∧
  poll_state r ∉ (["failed", "error"] : List String)

/-- A terminal-success poll response. -/
def success_resp (r : PollHttp) : Prop :=
  r.statusCode < 300 ∧ poll_state r ∈ (["succeeded", "completed", "ready"] : List String)

/-- A terminal-failure poll response. -/
def fail_resp (r : PollHttp) : Prop :=
  r.statusCode < 300 ∧ poll_state r ∈ (["failed", "error"] : List String)

theorem poll_go_skip (w : JobWorld) :
    ∀ (k attempt fuel elapsed : Nat),
      (∀ j, j < k → nonterminal_resp (w.poll (attempt + j))) →
      poll_sora_job_go w attempt (fuel + k) elapsed =
        poll_sora_job_go w (attempt + k) fuel (elapsed + 2 * k) := by
  intro k
  induction k with
  | zero => intro attempt fuel elapsed _; simp
  | succ m ih =>
    intro attempt fuel elapsed hnt
    have hstep : poll_sora_job_go w attempt ((fuel + m) + 1) elapsed =
        poll_sora_job_go w (attempt + 1) (fuel + m) (elapsed + 2) := by
      obtain ⟨hcode, hnsucc, hnfail⟩ := hnt 0 (Nat.succ_pos m)
      simp only [Nat.add_zero] at hcode hnsucc hnfail
      simp only [List.mem_cons, List.not_mem_nil, or_false, not_or] at hnsucc hnfail
      simp only [poll_sora_job_go]
      rw [if_neg (by omega), if_neg ?hsucc, if_neg ?hfail]
      case hsucc =>
        simp only [Bool.or_eq_true, decide_eq_true_eq, not_or]
        tauto
      case hfail =>
        simp only [Bool.or_eq_true, decide_eq_true_eq, not_or]
        tauto
    rw [show fuel + (m + 1) = (fuel + m) + 1 from rfl, hstep,
      ih (attempt + 1) fuel (elapsed + 2) (fun j hj => by
        have := hnt (j + 1) (by omega)
        simpa [Nat.add_assoc, Nat.add_comm 1 j] using this)]
    have h1 : attempt + 1 + m = attempt + (m + 1) := by omega
    have h2 : elapsed + 2 + 2 * m = elapsed + 2 * (m + 1) := by omega
    rw [h1, h2]

/-- One poll step at a terminal response resolves immediately. -/
theorem poll_go_terminal (w : JobWorld) (attempt fuel elapsed : Nat) :
    (success_resp (w.poll attempt) →
      poll_sora_job_go w attempt (fuel + 1) elapsed =
        (extract_media_on_success w (w.poll attempt), elapsed)) ∧
    (fail_resp (w.poll attempt) →
      poll_sora_job_go w attempt (fuel + 1) elapsed = (.jobFailed, elapsed)) := by
  constructor
  · rintro ⟨hcode, hmem⟩
    simp only [List.mem_cons, List.not_mem_nil, or_false] at hmem
    simp only [poll_sora_job_go]
    rw [if_neg (by omega), if_pos ?hs]
    case hs =>
      rcases hmem with h | h | h <;> simp [h]
  · rintro ⟨hcode, hmem⟩
    simp only [List.mem_cons, List.not_mem_nil, or_false] at hmem
    have hne1 : poll_state (w.poll attempt) ≠ "succeeded" := by
      rcases hmem with h | h <;> simp [h]
    have hne2 : poll_state (w.poll attempt) ≠ "completed" := by
      rcases hmem with h | h <;> simp [h]
    have hne3 : poll_state (w.poll attempt) ≠ "ready" := by
      rcases hmem with h | h <;> simp [h]
    simp only [poll_sora_job_go]
    rw [if_neg (by omega), if_neg ?hns, if_pos ?hf]
    case hns => simp [hne1, hne2, hne3]
    case hf => rcases hmem with h | h <;> simp [h]

/-- C7: the client polls the job status in a loop bounded at 180 attempts
with a two-second sleep after each waiting attempt (360 seconds, about six
minutes, before timing out); a terminal state among succeeded, completed or
ready resolves to media found by trying, in source order, the embedded
result URL, a listed output file download URL, fetched file content, then
the generic content endpoint, and to the empty-result failure if none
yields media; a terminal state among failed or error raises the job-failed
error; exhausting the attempt budget raises the timeout error. -/
theorem poll_sora_spec (w : JobWorld) (k : Nat) :
    ((∀ j, j < 180 → nonterminal_resp (w.poll j)) →
      poll_sora_job w = (.timedOut, 360)) ∧
    (k < 180 → (∀ j, j < k → nonterminal_resp (w.poll j)) →
      (fail_resp (w.poll k) → poll_sora_job w = (.jobFailed, 2 * k)) ∧
      (success_resp (w.poll k) →
        poll_sora_job w = (extract_media_on_success w (w.poll k), 2 * k) ∧
        (∀ u, embedded_video_url (w.poll k) = some u →
          extract_media_on_success w (w.poll k) = .media (.url u)) ∧
        (embedded_video_url (w.poll k) = none →
          ∀ u, data_items_url (w.poll k) = some u →
          extract_media_on_success w (w.poll k) = .media (.url u)) ∧
        (embedded_video_url (w.poll k) = none → data_items_url (w.poll k) = none →
          ∀ u, fetch_sora_download_url w = some u →
          extract_media_on_success w (w.poll k) = .media (.url u)) ∧
        (embedded_video_url (w.poll k) = none → data_items_url (w.poll k) = none →
          fetch_sora_download_url w = none →
          ∀ b, fetch_sora_file_content w = some b →
          extract_media_on_success w (w.poll k) = .media (.bytes b)) ∧
        (embedded_video_url (w.poll k) = none → data_items_url (w.poll k) = none →
          fetch_sora_download_url w = none → fetch_sora_file_content w = none →
          ∀ b, fetch_sora_job_content w = some b →
          extract_media_on_success w (w.poll k) = .media (.bytes b)) ∧
        (embedded_video_url (w.poll k) = none → data_items_url (w.poll k) = none →
          fetch_sora_download_url w = none → fetch_sora_file_content w = none →
          fetch_sora_job_content w = none →
          extract_media_on_success w (w.poll k) = .emptyResult))) := by
  constructor
  · intro hall
    have h := poll_go_skip w 180 0 0 0 (fun j hj => by simpa using hall j hj)
    unfold poll_sora_job
    rw [show (180 : Nat) = 0 + 180 from rfl, h]
    rfl
  · intro hk hpre
    have hskip := poll_go_skip w k 0 (180 - k) 0 (fun j hj => by simpa using hpre j hj)
    have h180 : 180 - k + k = 180 := by omega
    constructor
    · intro hfail
      unfold poll_sora_job
      rw [show (180 : Nat) = 180 - k + k from by omega, hskip]
      have := (poll_go_terminal w (0 + k) (180 - k - 1) (0 + 2 * k)).2
      rw [show (180 : Nat) - k = 180 - k - 1 + 1 from by omega]
      rw [this (by simpa using hfail)]
      simp
    · intro hsucc
      refine ⟨?_, ?_, ?_, ?_, ?_, ?_, ?_⟩
      · unfold poll_sora_job
        rw [show (180 : Nat) = 180 - k + k from by omega, hskip]
        have := (poll_go_terminal w (0 + k) (180 - k - 1) (0 + 2 * k)).1
        rw [show (180 : Nat) - k = 180 - k - 1 + 1 from by omega]
        rw [this (by simpa using hsucc)]
        simp
      · intro u hu
        unfold extract_media_on_success
        rw [hu]
      · intro h1 u hu
        unfold extract_media_on_success
        rw [h1, hu]
      · intro h1 h2 u hu
        unfold extract_media_on_success
        rw [h1, h2, hu]
      · intro h1 h2 h3 b hb
        unfold extract_media_on_success
        rw [h1, h2, h3, hb]
      · intro h1 h2 h3 h4 b hb
        unfold extract_media_on_success
        rw [h1, h2, h3, h4, hb]
      · intro h1 h2 h3 h4 h5
        unfold extract_media_on_success
        rw [h1, h2, h3, h4, h5]

/-- A concrete one-job world whose first poll already reports success with
an embedded result URL. -/
def demoJobWorld : JobWorld :=
  { poll := fun _ =>
      { statusCode := 200
        status := some "succeeded"
        state := none
        video := some { url := some "https://cdn/video.mp4", download_url := none }
        result := none
        dataItems := [] }
    files := { statusCode := 404, items := [] }
    fileContent := fun _ => none
    jobContent := none }

theorem poll_sora_spec_witness :
    poll_sora_job demoJobWorld = (.media (.url "https://cdn/video.mp4"), 0) :=
  (((poll_sora_spec demoJobWorld 0).2 (by norm_num)
    (fun j hj => absurd hj (Nat.not_lt_zero j))).2
    (by constructor
        · decide
        · decide)).1

end GaitVideo
